import Mathlib

/-!
Shallow embedding of the Delta_CertM compliance gap-analysis and
certification-lifecycle system.

The frontend TypeScript under `src/frontend` (and the unnamed frontend
modules) is embedded directly.  The backend service (FastAPI) is not part of
the source tree — only its README and the frontend type declarations are —
so the Gap Analysis Engine and the Expiry/Notification Sweeper are modelled
from the specification (sections 4.1, 4.2 and 4.4); those definitions carry
a `Modelled from the spec:` doc comment.

JavaScript conventions that matter to the embedded code are made explicit:
`null`/`undefined` become `Option`, the string `||` fallback (which treats
the empty string as falsy) becomes `jsOrStr`, and `String.prototype.includes`
becomes contiguous-sublist containment on lowered character lists.
-/

namespace DeltaCertM

/-- Lifecycle status of a certification record (`ComplianceStatus` enum in
`models.types.ts`). -/
inductive ComplianceStatus where
  | PENDING
  | ACTIVE
  | EXPIRING
  | EXPIRED
deriving DecidableEq, Repr

/-- String value of a `ComplianceStatus`, as serialized in the TypeScript
enum (`PENDING = 'PENDING'`, ...). -/
def statusToString : ComplianceStatus → String
  | .PENDING => "PENDING"
  | .ACTIVE => "ACTIVE"
  | .EXPIRING => "EXPIRING"
  | .EXPIRED => "EXPIRED"

/-- JavaScript `a || b` on optional strings: `a` wins unless it is absent or
the empty string (both falsy in JS). -/
def jsOrStr (a b : Option String) : Option String :=
  match a with
  | none => b
  | some s => if s = "" then b else some s

/-- JavaScript string falsiness for an optional string: `undefined`, `null`
and `''` are falsy. -/
def jsFalsyStr (v : Option String) : Bool :=
  match v with
  | none => true
  | some s => s = ""

/-- One entry of `GapAnalysisResponse.results`
(`GapAnalysisResultItem` in `models.types.ts`): a per-(certification,
technology) requirement with its gap flag and the record status, if any. -/
structure GapAnalysisResultItem where
  certification_id : Nat
  certification_name : String
  technology : String
  has_gap : Bool
  status : Option String
  expiry_date : Option String
  compliance_record_id : Option String
  branding_image_url : Option String
  labeling_requirements : Option String
  open_tasks_count : Option Nat
deriving DecidableEq, Repr

/-- One grouped row of the gap results table (`GroupedResult` in
`GapResultsTable.tsx`): one row per certification with the merged
technology names. -/
structure GroupedResult where
  certification_id : Nat
  certification_name : String
  technologies : List String
  has_gap : Bool
  status : Option String
  expiry_date : Option String
  compliance_record_id : Option String
  branding_image_url : Option String
  labeling_requirements : Option String
  open_tasks_count : Nat
deriving DecidableEq, Repr

/-- Initial grouped row built from the first item seen for a certification
(`GapResultsTable.tsx`, the `!existing` branch of the reducer). -/
def initGroup (item : GapAnalysisResultItem) : GroupedResult :=
  { certification_id := item.certification_id
    certification_name := item.certification_name
    technologies := [item.technology]
    has_gap := item.has_gap
    status := item.status
    expiry_date := item.expiry_date
    compliance_record_id := item.compliance_record_id
    branding_image_url := item.branding_image_url
    labeling_requirements := item.labeling_requirements
    open_tasks_count := item.open_tasks_count.getD 0 }

/-- Merge a further item for the same certification into an existing grouped
row (`GapResultsTable.tsx`, the merge branch of the reducer): push the
technology if unseen, OR the gap flag, keep the first truthy
status/expiry. -/
def mergeGroup (g : GroupedResult) (item : GapAnalysisResultItem) : GroupedResult :=
  { g with
    technologies :=
      if item.technology ∈ g.technologies then g.technologies
      else g.technologies ++ [item.technology]
    has_gap := g.has_gap || item.has_gap
    status := jsOrStr g.status item.status
    expiry_date := jsOrStr g.expiry_date item.expiry_date }

/-- One reducer step of the grouping in `GapResultsTable.tsx`: merge into the
row keyed by the item's certification id, or start a new row.  The
JavaScript accumulator is an object keyed by `certification_id`; it is
embedded as an association list with unique keys. -/
def upsert (acc : List GroupedResult) (item : GapAnalysisResultItem) : List GroupedResult :=
  match acc with
  | [] => [initGroup item]
  | g :: rest =>
    if g.certification_id = item.certification_id then mergeGroup g item :: rest
    else g :: upsert rest item

/-- The `groupedResults` computation of `GapResultsTable.tsx`: group the raw
per-technology results by certification. -/
def groupedResults (results : List GapAnalysisResultItem) : List GroupedResult :=
  results.foldl upsert []

/-- Status cell text of the grouped gap results table
(`GapResultsTable.tsx`, Status column render): `MISSING` when the row has a
gap, otherwise the row's status verbatim (an absent status renders as the
empty string). -/
def gapTableStatusText (g : GroupedResult) : String :=
  if g.has_gap then "MISSING" else g.status.getD ""

/-- Status cell text of the per-item certifications table in
`DeviceCountryProgress.tsx` (`renderCertificationsTable`): `MISSING` when
the item has a gap, otherwise `item.status || 'COMPLIANT'`. -/
def deviceCountryStatusText (item : GapAnalysisResultItem) : String :=
  if item.has_gap then "MISSING"
  else (jsOrStr item.status (some "COMPLIANT")).getD "COMPLIANT"

/-- Technology reference entity (`Technology` in `models.types.ts`). -/
structure Technology where
  id : Nat
  name : String
deriving DecidableEq, Repr

/-- Regulatory matrix rule (`RegulatoryRule` in `models.types.ts`): a
(technology, country, certification) triple with a mandatory flag. -/
structure RegulatoryRule where
  id : Nat
  technology_id : Nat
  country_id : Nat
  certification_id : Nat
  is_mandatory : Bool
deriving DecidableEq, Repr

/-- Certification reference entity (`Certification` in `models.types.ts`). -/
structure Certification where
  id : Nat
  name : String
deriving DecidableEq, Repr

/-- Certification record as the gap analysis sees it: one tracked
(tenant, product, country, certification) obligation (`ComplianceRecord`
in `models.types.ts`, restricted to the fields the engine reports). -/
structure CertificationRecord where
  id : String
  certification_id : Nat
  status : ComplianceStatus
  expiry_date : Option String
deriving DecidableEq, Repr

/-- Modelled from the spec: the Regulatory Matrix contract
`RequiredCertifications` (spec section 4.1; the backend implementation is
not in the source tree).  For every technology of the input set, look up
all rules keyed by (technology, country) and union the results; the same
certification reachable via several technologies appears once per
(certification, technology) pair. -/
def requiredCertifications (rules : List RegulatoryRule) (techs : List Technology)
    (country : Nat) : List (Nat × Technology) :=
  techs.flatMap fun t =>
    ((rules.filter fun r => r.technology_id = t.id && r.country_id = country).map
      fun r => (r.certification_id, t))

/-- Modelled from the spec: one raw result item of the Gap Analysis Engine
(spec section 4.2 step 4; the backend implementation is not in the source
tree).  A required (certification, technology) pair with no record is a
gap with status `MISSING`; one with a record is not a gap and reports the
record's lifecycle status verbatim. -/
def mkResultItem (records : List CertificationRecord) (certs : List Certification)
    (p : Nat × Technology) : GapAnalysisResultItem :=
  let certName := (((certs.find? fun c => c.id = p.1).map Certification.name).getD "")
  match records.find? (fun r => r.certification_id = p.1) with
  | none =>
    { certification_id := p.1
      certification_name := certName
      technology := p.2.name
      has_gap := true
      status := some "MISSING"
      expiry_date := none
      compliance_record_id := none
      branding_image_url := none
      labeling_requirements := none
      open_tasks_count := none }
  | some r =>
    { certification_id := p.1
      certification_name := certName
      technology := p.2.name
      has_gap := false
      status := some (statusToString r.status)
      expiry_date := r.expiry_date
      compliance_record_id := some r.id
      branding_image_url := none
      labeling_requirements := none
      open_tasks_count := none }

/-- Gap analysis response (`GapAnalysisResponse` in `models.types.ts`). -/
structure GapAnalysisResponse where
  total_required : Nat
  gaps_found : Nat
  results : List GapAnalysisResultItem
deriving DecidableEq, Repr

/-- Modelled from the spec: the Gap Analysis Engine `Analyze` operation
(spec section 4.2; the backend implementation is not in the source tree).
Fails fast with `InvalidInput` when the product has no technologies;
otherwise resolves the required (certification, technology) pairs,
cross-references existing records, and counts distinct required
certifications and grouped gaps. -/
def analyze (rules : List RegulatoryRule) (techs : List Technology) (country : Nat)
    (records : List CertificationRecord) (certs : List Certification) :
    Except String GapAnalysisResponse :=
  if techs.isEmpty then .error "InvalidInput"
  else
    let pairs := requiredCertifications rules techs country
    let results := pairs.map (mkResultItem records certs)
    .ok
      { total_required := ((pairs.map Prod.fst).dedup).length
        gaps_found := (groupedResults results).countP fun g => g.has_gap
        results := results }

/-- Conceptual `GapReport` (spec section 6): totals plus one grouped item per
certification, as realized by the frontend grouping of the response. -/
structure GapReport where
  total_required : Nat
  gaps_found : Nat
  items : List GroupedResult
deriving DecidableEq, Repr

/-- The gap report assembled from a backend response by the frontend
grouping step. -/
def gapReport (resp : GapAnalysisResponse) : GapReport :=
  { total_required := resp.total_required
    gaps_found := resp.gaps_found
    items := groupedResults resp.results }

/-- Per-tenant notification rule (`NotificationRule` in `models.types.ts`,
restricted to the fields the sweeper reads). -/
structure NotificationRuleM where
  days_before_expiry : Int
  is_active : Bool
deriving DecidableEq, Repr

/-- Certification record as the sweeper sees it, with dates as day numbers so
that day arithmetic is explicit. -/
structure SweepRecord where
  status : ComplianceStatus
  expiry_day : Option Int
  last_notified_day : Option Int
deriving DecidableEq, Repr

/-- Modelled from the spec: the alert dedupe window of section 4.4 step 4 —
an alert may be emitted only if `last_notified_at` is null or more than 7
days old. -/
def shouldNotify (asOf : Int) (lastNotified : Option Int) : Bool :=
  match lastNotified with
  | none => true
  | some ln => 7 < asOf - ln

/-- Modelled from the spec: one record step of the Expiry/Notification
Sweeper (spec section 4.4; the backend cron implementation is not in the
source tree).  Only `ACTIVE`/`EXPIRING` records are processed.  With
`days_left = expiry - as_of`: negative means the record expires (no alert
this cycle); otherwise, if some active notification rule's threshold is
reached, the record becomes `EXPIRING` and an alert is emitted only when
`shouldNotify` allows it, updating `last_notified` on emission.  Returns
the updated record and whether an alert was emitted. -/
def sweepRecord (rules : List NotificationRuleM) (asOf : Int) (r : SweepRecord) :
    SweepRecord × Bool :=
  if r.status = .ACTIVE ∨ r.status = .EXPIRING then
    match r.expiry_day with
    | none => (r, false)
    | some e =>
      let daysLeft := e - asOf
      if daysLeft < 0 then ({ r with status := .EXPIRED }, false)
      else if rules.any fun nr => nr.is_active && daysLeft ≤ nr.days_before_expiry then
        if shouldNotify asOf r.last_notified_day then
          ({ r with status := .EXPIRING, last_notified_day := some asOf }, true)
        else ({ r with status := .EXPIRING }, false)
      else (r, false)
  else (r, false)

/-- Document type selector of the compliance record edit form
(`ComplianceRecordEditPage.tsx`, the `doc_type` field). -/
inductive DocType where
  | certificate
  | test_report
deriving DecidableEq, Repr

/-- Expiry-date validator of `ComplianceRecordEditPage.tsx`: rejects an
`ACTIVE` status with no date, and any date earlier than one month before
today (`monthAgo` is the day number of `dayjs().subtract(1, 'month')`;
dates are day numbers). -/
def expiryDateRuleOk (status : ComplianceStatus) (monthAgo : Int)
    (value : Option Int) : Bool :=
  if status = .ACTIVE ∧ value = none then false
  else
    match value with
    | some d => !(d < monthAgo)
    | none => true

/-- Certificate-number validator of `ComplianceRecordEditPage.tsx`: rejects
an `ACTIVE` status with a falsy value, and any value longer than 25
characters. -/
def certificateNumberRuleOk (status : ComplianceStatus) (value : Option String) : Bool :=
  (!(status = .ACTIVE && jsFalsyStr value)) &&
    (match value with
     | some s => s.length ≤ 25
     | none => true)

/-- Upload validator of `ComplianceRecordEditPage.tsx`: a test report
document is required when the test-report document type is selected and
neither a fresh upload nor an existing stored report is present. -/
def uploadRuleOk (docType : DocType) (hasUploadFile hasExistingTestReport : Bool) : Bool :=
  match docType with
  | .test_report => hasUploadFile || hasExistingTestReport
  | .certificate => true

/-- Whole-form validation of the compliance record edit page
(`ComplianceRecordEditPage.tsx`).  The expiry-date and certificate-number
fields — and hence their validators — are only rendered when the document
type is `certificate` (the conditional `Form.Item` at the
`doc_type === 'certificate'` check); the upload validator always runs. -/
def recordEditFormOk (docType : DocType) (status : ComplianceStatus) (monthAgo : Int)
    (expiry : Option Int) (certNumber : Option String)
    (hasUploadFile hasExistingTestReport : Bool) : Bool :=
  (match docType with
   | .certificate => expiryDateRuleOk status monthAgo expiry &&
       certificateNumberRuleOk status certNumber
   | .test_report => true) &&
    uploadRuleOk docType hasUploadFile hasExistingTestReport

/-- Sub-task status (`TaskStatus` in `models.types.ts`). -/
inductive TaskStatus where
  | TODO
  | IN_PROGRESS
  | DONE
deriving DecidableEq, Repr

/-- JavaScript `Math.round((done / total) * 100)` for `0 ≤ done ≤ total`,
`total > 0`: the exact rational `100 * done / total` rounded half-up. -/
def roundPercent (done total : Nat) : Nat :=
  (200 * done + total) / (2 * total)

/-- The `progressPercent` computation of `ComplianceTaskDetailPage.tsx`
(`ComplianceTasksPanel`): the rounded done-percentage over the loaded
tasks when there are any, otherwise the record's stored
`task_progress_percent` (`initialProgress`) with `?? 0` fallback. -/
def progressPercent (tasks : Option (List TaskStatus)) (initialProgress : Option Nat) : Nat :=
  match tasks with
  | some ts =>
    if 0 < ts.length then roundPercent (ts.countP fun s => s = TaskStatus.DONE) ts.length
    else initialProgress.getD 0
  | none => initialProgress.getD 0

/-- Characters of a string lowered as by JavaScript `toLowerCase` (the names
involved are ASCII, where `Char.toLower` agrees with JavaScript). -/
def lowerChars (s : String) : List Char :=
  s.data.map Char.toLower

/-- Certification label as the fuzzy matcher reads it (`CertificationLabel`
in `models.types.ts`: `name`, `country_id`, `requirements?.region`). -/
structure CertificationLabelM where
  name : String
  country_id : Option Nat
  region : Option String
deriving DecidableEq, Repr

/-- Compliance record fields read by the label matcher
(`ComplianceRecordDetailPage`): the certification name (optional in the
model type) and the record's country. -/
structure LabelRecordView where
  certification_name : Option String
  country_id : Nat
deriving DecidableEq, Repr

/-- The fuzzy label-match predicate of `ComplianceRecordDetailPage`
(the `labels?.find(...)` callback): name containment first, then explicit
mappings (TELEC/giteki, FCC, the WPC/BIS exclusion), then the EU region
rule, then the country fallback.  JavaScript `includes` is contiguous
sublist containment on the lowered characters. -/
def labelMatches (record : LabelRecordView) (l : CertificationLabelM) : Bool :=
  let certName := lowerChars (record.certification_name.getD "")
  let labelName := lowerChars l.name
  if labelName = certName ∨ certName <:+: labelName ∨ labelName <:+: certName then true
  else if certName = "telec".data ∧ "giteki".data <:+: labelName then true
  else if "fcc".data <:+: certName ∧ "fcc".data <:+: labelName then true
  else if certName = "wpc".data ∧ "bis".data <:+: labelName then false
  else if l.region = some "EU" ∧ record.certification_name = some "CE" then true
  else if l.country_id = some record.country_id then true
  else false

/-- The `matchingLabel` selection of `ComplianceRecordDetailPage`: the first
label of the fetched list satisfying the fuzzy predicate. -/
def matchingLabel (record : LabelRecordView) (labels : List CertificationLabelM) :
    Option CertificationLabelM :=
  labels.find? (labelMatches record)

/-- Tenant as the tenant slice stores it (`Tenant` in `models.types.ts`,
restricted to the fields the slice reads). -/
structure TenantM where
  id : String
  name : String
  is_active : Bool
deriving DecidableEq, Repr

/-- State of the tenant Redux slice (`TenantState` in the tenant slice
module). -/
structure TenantState where
  currentTenantId : Option String
  tenants : List TenantM
deriving DecidableEq, Repr

/-- The `setTenants` reducer of the tenant slice: store the list, and when no
tenant is currently selected (falsy id) auto-select the first active
tenant of a non-empty list, persisting its id to the
`currentTenantId` localStorage key (the second component). -/
def setTenants (st : TenantState) (localStore : Option String) (payload : List TenantM) :
    TenantState × Option String :=
  let st1 := { st with tenants := payload }
  if jsFalsyStr st.currentTenantId ∧ 0 < payload.length then
    match payload.find? (fun t => t.is_active) with
    | some t => ({ st1 with currentTenantId := some t.id }, some t.id)
    | none => (st1, localStore)
  else (st1, localStore)

/-- Input of the `daysUntil` helper (`formatters.ts`): a date (embedded as a
day number, the value `dayjs` parses it to), `null`, or `undefined`. -/
inductive JSDateInput where
  | null
  | undef
  | date (day : Int)
deriving DecidableEq, Repr

/-- The `daysUntil` helper of `formatters.ts`: `0` for a falsy input,
otherwise the signed whole-day difference from today. -/
def daysUntil (input : JSDateInput) (today : Int) : Int :=
  match input with
  | .null => 0
  | .undef => 0
  | .date d => d - today

/-! ### Grouping lemmas

The reducer of `GapResultsTable.tsx` is characterized per certification id:
the grouped row for an id is the fold of `mergeGroup` over the items
carrying that id. -/

/-- Value of the grouped accumulator at a key, before or after grouping. -/
def mergeAll (og : Option GroupedResult) (l : List GapAnalysisResultItem) :
    Option GroupedResult :=
  match og with
  | some g => some (l.foldl mergeGroup g)
  | none =>
    match l with
    | [] => none
    | i :: rest => some (rest.foldl mergeGroup (initGroup i))

theorem mergeAll_nil (og : Option GroupedResult) : mergeAll og [] = og := by
  cases og <;> rfl

theorem mergeGroup_certification_id (g : GroupedResult) (i : GapAnalysisResultItem) :
    (mergeGroup g i).certification_id = g.certification_id := rfl

theorem initGroup_certification_id (i : GapAnalysisResultItem) :
    (initGroup i).certification_id = i.certification_id := rfl

theorem find?_upsert (acc : List GroupedResult) (i : GapAnalysisResultItem) (c : Nat) :
    (upsert acc i).find? (fun g => g.certification_id = c) =
      if i.certification_id = c then
        match acc.find? (fun g => g.certification_id = c) with
        | none => some (initGroup i)
        | some g => some (mergeGroup g i)
      else acc.find? (fun g => g.certification_id = c) := by
  induction acc with
  | nil =>
    by_cases hic : i.certification_id = c <;>
      simp [upsert, List.find?, initGroup_certification_id, hic]
  | cons g rest ih =>
    simp only [upsert]
    by_cases hg : g.certification_id = i.certification_id
    · rw [if_pos hg]
      by_cases hgc : g.certification_id = c
      · have hic : i.certification_id = c := hg.symm.trans hgc
        rw [List.find?_cons_of_pos _
            (by simpa [mergeGroup_certification_id] using hgc),
          List.find?_cons_of_pos _ (by simpa using hgc), if_pos hic]
      · have hic : ¬ i.certification_id = c := fun h => hgc (hg.trans h)
        rw [List.find?_cons_of_neg _
            (by simpa [mergeGroup_certification_id] using hgc),
          List.find?_cons_of_neg _ (by simpa using hgc), if_neg hic]
    · rw [if_neg hg]
      by_cases hgc : g.certification_id = c
      · have hic : ¬ i.certification_id = c := fun h => hg (hgc.trans h.symm)
        rw [if_neg hic, List.find?_cons_of_pos _ (by simpa using hgc),
          List.find?_cons_of_pos _ (by simpa using hgc)]
      · rw [List.find?_cons_of_neg _ (by simpa using hgc), ih]
        by_cases hic : i.certification_id = c
        · rw [if_pos hic, if_pos hic, List.find?_cons_of_neg _ (by simpa using hgc)]
        · rw [if_neg hic, if_neg hic, List.find?_cons_of_neg _ (by simpa using hgc)]

theorem mem_map_cid_upsert (acc : List GroupedResult) (i : GapAnalysisResultItem)
    (c : Nat) :
    (c ∈ (upsert acc i).map (fun g => g.certification_id) ↔
      c ∈ acc.map (fun g => g.certification_id) ∨ c = i.certification_id) := by
  induction acc with
  | nil => simp [upsert, initGroup_certification_id]
  | cons g rest ih =>
    simp only [upsert]
    by_cases hg : g.certification_id = i.certification_id
    · rw [if_pos hg]
      simp only [List.map_cons, List.mem_cons, mergeGroup_certification_id]
      constructor
      · rintro (h | h)
        · exact Or.inl (Or.inl h)
        · exact Or.inl (Or.inr h)
      · rintro ((h | h) | h)
        · exact Or.inl h
        · exact Or.inr h
        · exact Or.inl (h.trans hg.symm)
    · rw [if_neg hg]
      simp only [List.map_cons, List.mem_cons, ih]
      tauto

theorem nodup_cid_upsert (acc : List GroupedResult) (i : GapAnalysisResultItem)
    (h : (acc.map (fun g => g.certification_id)).Nodup) :
    ((upsert acc i).map (fun g => g.certification_id)).Nodup := by
  induction acc with
  | nil => simp [upsert]
  | cons g rest ih =>
    simp only [List.map_cons, List.nodup_cons] at h
    simp only [upsert]
    by_cases hg : g.certification_id = i.certification_id
    · rw [if_pos hg]
      simp only [List.map_cons, List.nodup_cons, mergeGroup_certification_id]
      exact ⟨h.1, h.2⟩
    · rw [if_neg hg]
      simp only [List.map_cons, List.nodup_cons]
      refine ⟨fun hmem => ?_, ih h.2⟩
      rcases (mem_map_cid_upsert rest i g.certification_id).mp hmem with h1 | h1
      · exact h.1 h1
      · exact hg h1

theorem find?_foldl_upsert (items : List GapAnalysisResultItem) :
    ∀ (acc : List GroupedResult) (c : Nat),
      (items.foldl upsert acc).find? (fun g => g.certification_id = c) =
        mergeAll (acc.find? (fun g => g.certification_id = c))
          (items.filter (fun it => it.certification_id = c)) := by
  induction items with
  | nil => intro acc c; simp [mergeAll_nil]
  | cons i rest ih =>
    intro acc c
    rw [List.foldl_cons, ih (upsert acc i) c, find?_upsert]
    by_cases hic : i.certification_id = c
    · rw [if_pos hic, List.filter_cons_of_pos (by simpa using hic)]
      cases hfind : acc.find? (fun g => g.certification_id = c) with
      | none => simp [mergeAll]
      | some g => simp [mergeAll]
    · rw [if_neg hic, List.filter_cons_of_neg (by simpa using hic)]

theorem mem_map_cid_foldl_upsert (items : List GapAnalysisResultItem) :
    ∀ (acc : List GroupedResult) (c : Nat),
      (c ∈ (items.foldl upsert acc).map (fun g => g.certification_id) ↔
        c ∈ acc.map (fun g => g.certification_id) ∨
          c ∈ items.map (fun it => it.certification_id)) := by
  induction items with
  | nil => intro acc c; simp
  | cons i rest ih =>
    intro acc c
    rw [List.foldl_cons, ih (upsert acc i) c]
    simp only [mem_map_cid_upsert, List.map_cons, List.mem_cons]
    tauto

theorem nodup_cid_foldl_upsert (items : List GapAnalysisResultItem) :
    ∀ (acc : List GroupedResult),
      (acc.map (fun g => g.certification_id)).Nodup →
      ((items.foldl upsert acc).map (fun g => g.certification_id)).Nodup := by
  induction items with
  | nil => intro acc h; exact h
  | cons i rest ih =>
    intro acc h
    exact ih (upsert acc i) (nodup_cid_upsert acc i h)

theorem nodup_cid_groupedResults (items : List GapAnalysisResultItem) :
    ((groupedResults items).map (fun g => g.certification_id)).Nodup :=
  nodup_cid_foldl_upsert items [] (by simp)

theorem mem_map_cid_groupedResults (items : List GapAnalysisResultItem) (c : Nat) :
    (c ∈ (groupedResults items).map (fun g => g.certification_id) ↔
      c ∈ items.map (fun it => it.certification_id)) := by
  simpa [groupedResults] using mem_map_cid_foldl_upsert items [] c

theorem find?_groupedResults (items : List GapAnalysisResultItem) (c : Nat) :
    (groupedResults items).find? (fun g => g.certification_id = c) =
      mergeAll none (items.filter (fun it => it.certification_id = c)) := by
  simpa [groupedResults, List.find?] using find?_foldl_upsert items [] c

theorem hasGap_foldl_mergeGroup (l : List GapAnalysisResultItem) :
    ∀ g : GroupedResult,
      (l.foldl mergeGroup g).has_gap = (g.has_gap || l.any (fun i => i.has_gap)) := by
  induction l with
  | nil => intro g; simp
  | cons i rest ih =>
    intro g
    rw [List.foldl_cons, ih (mergeGroup g i)]
    simp [mergeGroup, Bool.or_assoc]

theorem status_foldl_mergeGroup (l : List GapAnalysisResultItem) :
    ∀ g : GroupedResult,
      (l.foldl mergeGroup g).status =
        l.foldl (fun s i => jsOrStr s i.status) g.status := by
  induction l with
  | nil => intro g; rfl
  | cons i rest ih =>
    intro g
    rw [List.foldl_cons, ih (mergeGroup g i), List.foldl_cons]
    rfl

theorem cid_foldl_mergeGroup (l : List GapAnalysisResultItem) :
    ∀ g : GroupedResult,
      (l.foldl mergeGroup g).certification_id = g.certification_id := by
  induction l with
  | nil => intro g; rfl
  | cons i rest ih =>
    intro g
    rw [List.foldl_cons, ih (mergeGroup g i), mergeGroup_certification_id]

theorem mem_techs_foldl_mergeGroup (l : List GapAnalysisResultItem) :
    ∀ (g : GroupedResult) (t : String),
      (t ∈ (l.foldl mergeGroup g).technologies ↔
        t ∈ g.technologies ∨ ∃ i ∈ l, i.technology = t) := by
  induction l with
  | nil => intro g t; simp
  | cons i rest ih =>
    intro g t
    rw [List.foldl_cons, ih (mergeGroup g i)]
    simp only [mergeGroup, List.mem_cons]
    by_cases hmem : i.technology ∈ g.technologies
    · rw [if_pos hmem]
      constructor
      · rintro (h | ⟨j, hj, ht⟩)
        · exact Or.inl h
        · exact Or.inr ⟨j, Or.inr hj, ht⟩
      · rintro (h | ⟨j, hj | hj, ht⟩)
        · exact Or.inl h
        · subst hj; exact Or.inl (ht ▸ hmem)
        · exact Or.inr ⟨j, hj, ht⟩
    · rw [if_neg hmem]
      simp only [List.mem_append, List.mem_singleton]
      constructor
      · rintro ((h | h) | ⟨j, hj, ht⟩)
        · exact Or.inl h
        · exact Or.inr ⟨i, Or.inl rfl, h.symm⟩
        · exact Or.inr ⟨j, Or.inr hj, ht⟩
      · rintro (h | ⟨j, hj | hj, ht⟩)
        · exact Or.inl (Or.inl h)
        · subst hj; exact Or.inl (Or.inr ht.symm)
        · exact Or.inr ⟨j, hj, ht⟩

theorem nodup_techs_foldl_mergeGroup (l : List GapAnalysisResultItem) :
    ∀ g : GroupedResult, g.technologies.Nodup →
      (l.foldl mergeGroup g).technologies.Nodup := by
  induction l with
  | nil => intro g h; exact h
  | cons i rest ih =>
    intro g h
    rw [List.foldl_cons]
    refine ih (mergeGroup g i) ?_
    simp only [mergeGroup]
    by_cases hmem : i.technology ∈ g.technologies
    · rw [if_pos hmem]; exact h
    · rw [if_neg hmem]
      simp [List.nodup_append, h, hmem]

theorem jsOrStr_foldl_const (l : List GapAnalysisResultItem) (st : String)
    (hne : st ≠ "") (hall : ∀ i ∈ l, i.status = some st) :
    l.foldl (fun s i => jsOrStr s i.status) (some st) = some st := by
  induction l with
  | nil => rfl
  | cons i rest ih =>
    rw [List.foldl_cons]
    have : jsOrStr (some st) i.status = some st := by simp [jsOrStr, hne]
    rw [this]
    exact ih (fun j hj => hall j (List.mem_cons_of_mem i hj))

theorem find?_eq_of_mem_nodup_cid (l : List GroupedResult) (g : GroupedResult)
    (hn : (l.map (fun h => h.certification_id)).Nodup) (hg : g ∈ l) :
    l.find? (fun h => h.certification_id = g.certification_id) = some g := by
  induction l with
  | nil => cases hg
  | cons a rest ih =>
    simp only [List.map_cons, List.nodup_cons] at hn
    rcases List.mem_cons.mp hg with rfl | hg2
    · exact List.find?_cons_of_pos _ (by simp)
    · have hne : ¬ a.certification_id = g.certification_id := fun h => by
        exact hn.1 (h ▸ List.mem_map_of_mem (fun x => x.certification_id) hg2)
      rw [List.find?_cons_of_neg _ (by simpa using hne)]
      exact ih hn.2 hg2

theorem countP_cid_eq_one (l : List GroupedResult) (g : GroupedResult)
    (hn : (l.map (fun h => h.certification_id)).Nodup) (hg : g ∈ l) :
    l.countP (fun h => h.certification_id = g.certification_id) = 1 := by
  induction l with
  | nil => cases hg
  | cons a rest ih =>
    simp only [List.map_cons, List.nodup_cons] at hn
    rcases List.mem_cons.mp hg with rfl | hg2
    · rw [List.countP_cons_of_pos _ _ (by simp)]
      have hzero : rest.countP (fun h => h.certification_id = g.certification_id) = 0 := by
        refine List.countP_eq_zero.mpr fun h hmem => ?_
        simp only [decide_eq_true_eq]
        exact fun heq =>
          hn.1 (heq ▸ List.mem_map_of_mem (fun x => x.certification_id) hmem)
      rw [hzero]
    · have hne : ¬ a.certification_id = g.certification_id := fun h => by
        exact hn.1 (h ▸ List.mem_map_of_mem (fun x => x.certification_id) hg2)
      rw [List.countP_cons_of_neg _ _ (by simpa using hne)]
      exact ih hn.2 hg2

/-- Membership in the grouped rows forces the filtered contribution list to
be non-empty and the row to be its merge fold. -/
theorem grouped_row_spec (items : List GapAnalysisResultItem) (g : GroupedResult)
    (hg : g ∈ groupedResults items) :
    ∃ (i : GapAnalysisResultItem) (rest : List GapAnalysisResultItem),
      items.filter (fun it => it.certification_id = g.certification_id) = i :: rest ∧
      g = rest.foldl mergeGroup (initGroup i) := by
  have hfind := find?_eq_of_mem_nodup_cid (groupedResults items) g
    (nodup_cid_groupedResults items) hg
  rw [find?_groupedResults] at hfind
  cases hfl : items.filter (fun it => it.certification_id = g.certification_id) with
  | nil => rw [hfl] at hfind; simp [mergeAll] at hfind
  | cons i rest =>
    rw [hfl] at hfind
    simp only [mergeAll, Option.some_inj] at hfind
    exact ⟨i, rest, rfl, hfind.symm⟩

theorem grouped_nodup_techs (items : List GapAnalysisResultItem) (g : GroupedResult)
    (hg : g ∈ groupedResults items) : g.technologies.Nodup := by
  obtain ⟨i, rest, -, hgdef⟩ := grouped_row_spec items g hg
  have hnd := nodup_techs_foldl_mergeGroup rest (initGroup i) (by simp [initGroup])
  rw [← hgdef] at hnd
  exact hnd

theorem grouped_mem_techs (items : List GapAnalysisResultItem) (g : GroupedResult)
    (hg : g ∈ groupedResults items) (t : String) :
    t ∈ g.technologies ↔
      ∃ i ∈ items, i.certification_id = g.certification_id ∧ i.technology = t := by
  obtain ⟨i, rest, hfl, hgdef⟩ := grouped_row_spec items g hg
  have hmemfl : ∀ j : GapAnalysisResultItem,
      (j ∈ items.filter (fun it => it.certification_id = g.certification_id) ↔
        j ∈ items ∧ j.certification_id = g.certification_id) := by
    intro j; simp [List.mem_filter]
  have hmt := mem_techs_foldl_mergeGroup rest (initGroup i) t
  rw [← hgdef] at hmt
  rw [hmt]
  have hstep : ((t ∈ (initGroup i).technologies ∨ ∃ j ∈ rest, j.technology = t) ↔
      ∃ j ∈ items.filter (fun it => it.certification_id = g.certification_id),
        j.technology = t) := by
    rw [hfl]
    simp only [initGroup, List.mem_cons, List.not_mem_nil, or_false]
    constructor
    · rintro (h | ⟨j, hj, ht⟩)
      · exact ⟨i, Or.inl rfl, h.symm⟩
      · exact ⟨j, Or.inr hj, ht⟩
    · rintro ⟨j, hj | hj, ht⟩
      · subst hj; exact Or.inl ht.symm
      · exact Or.inr ⟨j, hj, ht⟩
  rw [hstep]
  constructor
  · rintro ⟨j, hj, ht⟩
    obtain ⟨hj1, hj2⟩ := (hmemfl j).mp hj
    exact ⟨j, hj1, hj2, ht⟩
  · rintro ⟨j, hj, hc, ht⟩
    exact ⟨j, (hmemfl j).mpr ⟨hj, hc⟩, ht⟩

theorem grouped_hasGap_iff (items : List GapAnalysisResultItem) (g : GroupedResult)
    (hg : g ∈ groupedResults items) :
    g.has_gap = true ↔
      ∃ i ∈ items, i.certification_id = g.certification_id ∧ i.has_gap = true := by
  obtain ⟨i, rest, hfl, hgdef⟩ := grouped_row_spec items g hg
  have hmemfl : ∀ j : GapAnalysisResultItem,
      (j ∈ items.filter (fun it => it.certification_id = g.certification_id) ↔
        j ∈ items ∧ j.certification_id = g.certification_id) := by
    intro j; simp [List.mem_filter]
  have hgb := hasGap_foldl_mergeGroup rest (initGroup i)
  rw [← hgdef] at hgb
  rw [hgb]
  have hany : ((initGroup i).has_gap || rest.any fun j => j.has_gap) =
      (items.filter (fun it => it.certification_id = g.certification_id)).any
        (fun j => j.has_gap) := by
    rw [hfl]
    simp [initGroup]
  rw [hany, List.any_eq_true]
  constructor
  · rintro ⟨j, hj, ht⟩
    obtain ⟨hj1, hj2⟩ := (hmemfl j).mp hj
    exact ⟨j, hj1, hj2, ht⟩
  · rintro ⟨j, hj, hc, ht⟩
    exact ⟨j, (hmemfl j).mpr ⟨hj, hc⟩, ht⟩

theorem mkResultItem_cid (records : List CertificationRecord)
    (certs : List Certification) (p : Nat × Technology) :
    (mkResultItem records certs p).certification_id = p.1 := by
  unfold mkResultItem
  cases records.find? (fun r => r.certification_id = p.1) <;> rfl

theorem mkResultItem_technology (records : List CertificationRecord)
    (certs : List Certification) (p : Nat × Technology) :
    (mkResultItem records certs p).technology = p.2.name := by
  unfold mkResultItem
  cases records.find? (fun r => r.certification_id = p.1) <;> rfl

theorem statusToString_ne_empty (s : ComplianceStatus) : statusToString s ≠ "" := by
  cases s <;> simp [statusToString]

theorem analyze_ok_inversion (rules : List RegulatoryRule) (techs : List Technology)
    (country : Nat) (records : List CertificationRecord) (certs : List Certification)
    (resp : GapAnalysisResponse)
    (hok : analyze rules techs country records certs = .ok resp) :
    resp.results =
      (requiredCertifications rules techs country).map (mkResultItem records certs) ∧
    resp.total_required =
      (((requiredCertifications rules techs country).map Prod.fst).dedup).length ∧
    resp.gaps_found = (groupedResults resp.results).countP (fun g => g.has_gap) := by
  unfold analyze at hok
  by_cases h : techs.isEmpty
  · rw [if_pos h] at hok; cases hok
  · rw [if_neg h] at hok
    injection hok with hok
    subst hok
    exact ⟨rfl, rfl, rfl⟩

/-- Per-item characterization of the spec-modelled engine: the flags of a
result item are determined by the record lookup at its certification. -/
theorem result_item_char (rules : List RegulatoryRule) (techs : List Technology)
    (country : Nat) (records : List CertificationRecord) (certs : List Certification)
    (resp : GapAnalysisResponse)
    (hok : analyze rules techs country records certs = .ok resp) :
    ∀ item ∈ resp.results, ∀ c, item.certification_id = c →
      ((records.find? (fun r => r.certification_id = c) = none →
        item.has_gap = true ∧ item.status = some "MISSING") ∧
      (∀ r, records.find? (fun r2 => r2.certification_id = c) = some r →
        item.has_gap = false ∧ item.status = some (statusToString r.status))) := by
  obtain ⟨hres, -, -⟩ := analyze_ok_inversion rules techs country records certs resp hok
  intro item hitem c hc
  rw [hres] at hitem
  obtain ⟨p, hp, rfl⟩ := List.mem_map.mp hitem
  rw [mkResultItem_cid] at hc
  subst hc
  constructor
  · intro hnone
    simp [mkResultItem, hnone]
  · intro r hsome
    simp [mkResultItem, hsome]

/-! ### Claim theorems -/

/-- C1: a required certification with no `CertificationRecord` is reported
with `has_gap = true` and status `MISSING`, and one with an existing record
is reported with `has_gap = false` and the record's lifecycle status
verbatim (including `EXPIRED`, never re-flagged as a gap) — both for the
raw per-technology items (rendered by `DeviceCountryProgress`) and for the
grouped rows (rendered by `GapResultsTable`). -/
theorem C1_gap_correctness (rules : List RegulatoryRule) (techs : List Technology)
    (country : Nat) (records : List CertificationRecord) (certs : List Certification)
    (resp : GapAnalysisResponse)
    (hok : analyze rules techs country records certs = .ok resp) :
    (∀ item ∈ resp.results,
      (records.find? (fun r => r.certification_id = item.certification_id) = none →
        item.has_gap = true ∧ item.status = some "MISSING" ∧
        deviceCountryStatusText item = "MISSING") ∧
      (∀ r, records.find? (fun r2 => r2.certification_id = item.certification_id) =
          some r →
        item.has_gap = false ∧ item.status = some (statusToString r.status) ∧
        deviceCountryStatusText item = statusToString r.status)) ∧
    (∀ g ∈ groupedResults resp.results,
      (records.find? (fun r => r.certification_id = g.certification_id) = none →
        g.has_gap = true ∧ gapTableStatusText g = "MISSING") ∧
      (∀ r, records.find? (fun r2 => r2.certification_id = g.certification_id) =
          some r →
        g.has_gap = false ∧ gapTableStatusText g = statusToString r.status)) := by
  have hchar := result_item_char rules techs country records certs resp hok
  constructor
  · intro item hitem
    have hc := hchar item hitem item.certification_id rfl
    constructor
    · intro hnone
      obtain ⟨h1, h2⟩ := hc.1 hnone
      exact ⟨h1, h2, by simp [deviceCountryStatusText, h1]⟩
    · intro r hsome
      obtain ⟨h1, h2⟩ := hc.2 r hsome
      refine ⟨h1, h2, ?_⟩
      simp [deviceCountryStatusText, h1, h2, jsOrStr, statusToString_ne_empty r.status]
  · intro g hgmem
    obtain ⟨i, rest, hfl, hgdef⟩ := grouped_row_spec resp.results g hgmem
    have hj_all : ∀ j ∈ (i :: rest), j ∈ resp.results ∧
        j.certification_id = g.certification_id := by
      intro j hj
      rw [← hfl] at hj
      simpa [List.mem_filter] using hj
    have hgb := hasGap_foldl_mergeGroup rest (initGroup i)
    rw [← hgdef] at hgb
    have hst := status_foldl_mergeGroup rest (initGroup i)
    rw [← hgdef] at hst
    constructor
    · intro hnone
      obtain ⟨hi_mem, hi_cid⟩ := hj_all i (List.mem_cons_self i rest)
      obtain ⟨h1, -⟩ := (hchar i hi_mem g.certification_id hi_cid).1 hnone
      have hgap : g.has_gap = true := by
        rw [hgb]
        simp [initGroup, h1]
      exact ⟨hgap, by simp [gapTableStatusText, hgap]⟩
    · intro r hsome
      have hall : ∀ j ∈ (i :: rest), j.has_gap = false ∧
          j.status = some (statusToString r.status) := by
        intro j hj
        obtain ⟨hj_mem, hj_cid⟩ := hj_all j hj
        exact (hchar j hj_mem g.certification_id hj_cid).2 r hsome
      have hgap : g.has_gap = false := by
        rw [hgb]
        have hi := (hall i (List.mem_cons_self i rest)).1
        have hrest : rest.any (fun j => j.has_gap) = false := by
          rw [List.any_eq_false]
          intro j hj
          simp [(hall j (List.mem_cons_of_mem i hj)).1]
        simp [initGroup, hi, hrest]
      have hstatus : g.status = some (statusToString r.status) := by
        rw [hst]
        have hi := (hall i (List.mem_cons_self i rest)).2
        have hinit : (initGroup i).status = some (statusToString r.status) := by
          simp [initGroup, hi]
        rw [hinit]
        exact jsOrStr_foldl_const rest (statusToString r.status)
          (statusToString_ne_empty r.status)
          (fun j hj => (hall j (List.mem_cons_of_mem i hj)).2)
      refine ⟨hgap, ?_⟩
      simp [gapTableStatusText, hgap, hstatus]

/-- Demo technology WiFi 6E (spec scenario A). -/
def demoTech : Technology := { id := 1, name := "WiFi6E" }

/-- Demo regulatory rule: (WiFi6E, country 10) requires certification 5. -/
def demoRule : RegulatoryRule :=
  { id := 1, technology_id := 1, country_id := 10, certification_id := 5,
    is_mandatory := true }

/-- Demo certification WPC with id 5. -/
def demoCert : Certification := { id := 5, name := "WPC" }

/-- Demo record: certification 5 held but lapsed (`EXPIRED`). -/
def demoRecordExpired : CertificationRecord :=
  { id := "rec-2", certification_id := 5, status := .EXPIRED,
    expiry_date := some "2024-01-01" }

/-- Result item the engine produces for the expired demo record. -/
def demoItemExpired : GapAnalysisResultItem :=
  { certification_id := 5
    certification_name := "WPC"
    technology := "WiFi6E"
    has_gap := false
    status := some "EXPIRED"
    expiry_date := some "2024-01-01"
    compliance_record_id := some "rec-2"
    branding_image_url := none
    labeling_requirements := none
    open_tasks_count := none }

/-- Response the engine produces for the expired-record demo scenario. -/
def demoRespExpired : GapAnalysisResponse :=
  { total_required := 1, gaps_found := 0, results := [demoItemExpired] }

theorem C1_gap_correctness_witness :
    (analyze [demoRule] [demoTech] 10 [demoRecordExpired] [demoCert] =
      .ok demoRespExpired) ∧
    ((∀ item ∈ demoRespExpired.results,
      ([demoRecordExpired].find?
          (fun r => r.certification_id = item.certification_id) = none →
        item.has_gap = true ∧ item.status = some "MISSING" ∧
        deviceCountryStatusText item = "MISSING") ∧
      (∀ r, [demoRecordExpired].find?
          (fun r2 => r2.certification_id = item.certification_id) = some r →
        item.has_gap = false ∧ item.status = some (statusToString r.status) ∧
        deviceCountryStatusText item = statusToString r.status)) ∧
    (∀ g ∈ groupedResults demoRespExpired.results,
      ([demoRecordExpired].find?
          (fun r => r.certification_id = g.certification_id) = none →
        g.has_gap = true ∧ gapTableStatusText g = "MISSING") ∧
      (∀ r, [demoRecordExpired].find?
          (fun r2 => r2.certification_id = g.certification_id) = some r →
        g.has_gap = false ∧ gapTableStatusText g = statusToString r.status))) :=
  ⟨rfl, C1_gap_correctness [demoRule] [demoTech] 10 [demoRecordExpired] [demoCert]
    demoRespExpired rfl⟩

/-- C2: when gap-analysis results are grouped by certification, a
certification required via multiple technologies is reported as exactly one
row whose technologies field is the duplicate-free union of the
contributing technology names, and whose `has_gap` flag is true iff at
least one contributing per-technology result item has `has_gap = true`. -/
theorem C2_grouping_one_row_per_certification (items : List GapAnalysisResultItem)
    (g : GroupedResult) (hg : g ∈ groupedResults items) :
    (groupedResults items).countP
        (fun h => h.certification_id = g.certification_id) = 1 ∧
    g.technologies.Nodup ∧
    (∀ t, t ∈ g.technologies ↔
      ∃ i ∈ items, i.certification_id = g.certification_id ∧ i.technology = t) ∧
    (g.has_gap = true ↔
      ∃ i ∈ items, i.certification_id = g.certification_id ∧ i.has_gap = true) :=
  ⟨countP_cid_eq_one _ g (nodup_cid_groupedResults items) hg,
    grouped_nodup_techs items g hg,
    grouped_mem_techs items g hg,
    grouped_hasGap_iff items g hg⟩

/-- C3: the gap report satisfies
`gaps_found + (total_required - gaps_found) = total_required`, every
required certification appears exactly once among the grouped items, and
each item's technologies field consists exactly of the names of its
contributing technologies. -/
theorem C3_report_completeness (rules : List RegulatoryRule) (techs : List Technology)
    (country : Nat) (records : List CertificationRecord) (certs : List Certification)
    (resp : GapAnalysisResponse)
    (hok : analyze rules techs country records certs = .ok resp) :
    (gapReport resp).gaps_found +
        ((gapReport resp).total_required - (gapReport resp).gaps_found) =
      (gapReport resp).total_required ∧
    (∀ c, c ∈ (requiredCertifications rules techs country).map Prod.fst →
      (gapReport resp).items.countP (fun g => g.certification_id = c) = 1) ∧
    (∀ g ∈ (gapReport resp).items, g.technologies.Nodup ∧
      ∀ t, (t ∈ g.technologies ↔
        ∃ p ∈ requiredCertifications rules techs country,
          p.1 = g.certification_id ∧ p.2.name = t)) := by
  obtain ⟨hres, htot, hgaps⟩ :=
    analyze_ok_inversion rules techs country records certs resp hok
  have hmapcid : resp.results.map (fun it => it.certification_id) =
      (requiredCertifications rules techs country).map Prod.fst := by
    rw [hres, List.map_map]
    simp [Function.comp, mkResultItem_cid]
  have hlen : resp.total_required = (groupedResults resp.results).length := by
    rw [htot]
    have h1 := nodup_cid_groupedResults resp.results
    have h2 : (((requiredCertifications rules techs country).map Prod.fst).dedup).Nodup :=
      List.nodup_dedup _
    have hmem : ∀ c,
        (c ∈ (groupedResults resp.results).map (fun g => g.certification_id) ↔
          c ∈ ((requiredCertifications rules techs country).map Prod.fst).dedup) := by
      intro c
      rw [mem_map_cid_groupedResults, List.mem_dedup, ← hmapcid]
    have hperm := (List.perm_ext_iff_of_nodup h1 h2).mpr hmem
    rw [← hperm.length_eq, List.length_map]
  have hle : resp.gaps_found ≤ resp.total_required := by
    rw [hgaps, hlen]
    exact List.countP_le_length _
  refine ⟨Nat.add_sub_cancel' hle, ?_, ?_⟩
  · intro c hc
    have hc2 : c ∈ resp.results.map (fun it => it.certification_id) := by
      rw [hmapcid]; exact hc
    have hc3 : c ∈ (groupedResults resp.results).map (fun g => g.certification_id) :=
      (mem_map_cid_groupedResults _ c).mpr hc2
    obtain ⟨g, hgmem, hgcid⟩ := List.mem_map.mp hc3
    subst hgcid
    exact countP_cid_eq_one _ g (nodup_cid_groupedResults resp.results) hgmem
  · intro g hgmem
    refine ⟨grouped_nodup_techs _ g hgmem, fun t => ?_⟩
    rw [grouped_mem_techs _ g hgmem t]
    constructor
    · rintro ⟨j, hj, hc, ht⟩
      rw [hres] at hj
      obtain ⟨p, hp, rfl⟩ := List.mem_map.mp hj
      rw [mkResultItem_cid] at hc
      rw [mkResultItem_technology] at ht
      exact ⟨p, hp, hc, ht⟩
    · rintro ⟨p, hp, hc, ht⟩
      refine ⟨mkResultItem records certs p, ?_, ?_, ?_⟩
      · rw [hres]; exact List.mem_map_of_mem _ hp
      · rw [mkResultItem_cid]; exact hc
      · rw [mkResultItem_technology]; exact ht

theorem C3_report_completeness_witness :
    (analyze [demoRule] [demoTech] 10 [demoRecordExpired] [demoCert] =
      .ok demoRespExpired) ∧
    ((gapReport demoRespExpired).gaps_found +
        ((gapReport demoRespExpired).total_required -
          (gapReport demoRespExpired).gaps_found) =
      (gapReport demoRespExpired).total_required ∧
    (∀ c, c ∈ (requiredCertifications [demoRule] [demoTech] 10).map Prod.fst →
      (gapReport demoRespExpired).items.countP
        (fun g => g.certification_id = c) = 1) ∧
    (∀ g ∈ (gapReport demoRespExpired).items, g.technologies.Nodup ∧
      ∀ t, (t ∈ g.technologies ↔
        ∃ p ∈ requiredCertifications [demoRule] [demoTech] 10,
          p.1 = g.certification_id ∧ p.2.name = t))) :=
  ⟨rfl, C3_report_completeness [demoRule] [demoTech] 10 [demoRecordExpired]
    [demoCert] demoRespExpired rfl⟩

/-- Sample per-technology result: certification 5 required via WiFi 6E,
already satisfied by an active record. -/
def demoItemWifi : GapAnalysisResultItem :=
  { certification_id := 5
    certification_name := "WPC"
    technology := "WiFi6E"
    has_gap := false
    status := some "ACTIVE"
    expiry_date := some "2025-12-31"
    compliance_record_id := some "rec-1"
    branding_image_url := none
    labeling_requirements := none
    open_tasks_count := none }

/-- Sample per-technology result: the same certification required via
Bluetooth, reported as a gap. -/
def demoItemBt : GapAnalysisResultItem :=
  { certification_id := 5
    certification_name := "WPC"
    technology := "Bluetooth"
    has_gap := true
    status := some "MISSING"
    expiry_date := none
    compliance_record_id := none
    branding_image_url := none
    labeling_requirements := none
    open_tasks_count := none }

theorem C2_grouping_witness :
    (mergeGroup (initGroup demoItemWifi) demoItemBt ∈
        groupedResults [demoItemWifi, demoItemBt]) ∧
    ((groupedResults [demoItemWifi, demoItemBt]).countP
        (fun h => h.certification_id =
          (mergeGroup (initGroup demoItemWifi) demoItemBt).certification_id) = 1 ∧
      (mergeGroup (initGroup demoItemWifi) demoItemBt).technologies.Nodup ∧
      (∀ t, t ∈ (mergeGroup (initGroup demoItemWifi) demoItemBt).technologies ↔
        ∃ i ∈ [demoItemWifi, demoItemBt],
          i.certification_id =
            (mergeGroup (initGroup demoItemWifi) demoItemBt).certification_id ∧
          i.technology = t) ∧
      ((mergeGroup (initGroup demoItemWifi) demoItemBt).has_gap = true ↔
        ∃ i ∈ [demoItemWifi, demoItemBt],
          i.certification_id =
            (mergeGroup (initGroup demoItemWifi) demoItemBt).certification_id ∧
          i.has_gap = true)) :=
  ⟨by decide,
    C2_grouping_one_row_per_certification [demoItemWifi, demoItemBt]
      (mergeGroup (initGroup demoItemWifi) demoItemBt) (by decide)⟩

/-! ### Sweeper lemmas and claims -/

theorem sweep_emit_iff (rules : List NotificationRuleM) (asOf : Int) (r : SweepRecord) :
    (sweepRecord rules asOf r).2 = true ↔
      ((r.status = ComplianceStatus.ACTIVE ∨ r.status = ComplianceStatus.EXPIRING) ∧
        ∃ e, r.expiry_day = some e ∧ ¬ e - asOf < 0 ∧
          (rules.any fun nr => nr.is_active && e - asOf ≤ nr.days_before_expiry) = true ∧
          shouldNotify asOf r.last_notified_day = true) := by
  constructor
  · intro h
    by_cases hs : r.status = ComplianceStatus.ACTIVE ∨ r.status = ComplianceStatus.EXPIRING
    case neg =>
      unfold sweepRecord at h
      rw [if_neg hs] at h
      simp at h
    case pos =>
      cases hexp : r.expiry_day with
      | none =>
        unfold sweepRecord at h
        rw [if_pos hs, hexp] at h
        simp at h
      | some e =>
        unfold sweepRecord at h
        rw [if_pos hs, hexp] at h
        dsimp only at h
        by_cases hlt : e - asOf < 0
        · rw [if_pos hlt] at h
          simp at h
        · rw [if_neg hlt] at h
          by_cases hany :
              (rules.any fun nr => nr.is_active && e - asOf ≤ nr.days_before_expiry) = true
          · rw [if_pos hany] at h
            by_cases hnot : shouldNotify asOf r.last_notified_day = true
            · exact ⟨hs, e, rfl, hlt, hany, hnot⟩
            · rw [if_neg hnot] at h
              simp at h
          · rw [if_neg hany] at h
            simp at h
  · rintro ⟨hs, e, hexp, hlt, hany, hnot⟩
    unfold sweepRecord
    rw [if_pos hs, hexp]
    dsimp only
    rw [if_neg hlt, if_pos hany, if_pos hnot]

theorem sweep_emit_result (rules : List NotificationRuleM) (asOf : Int) (r : SweepRecord)
    (h : (sweepRecord rules asOf r).2 = true) :
    (sweepRecord rules asOf r).1 =
      { r with status := ComplianceStatus.EXPIRING, last_notified_day := some asOf } := by
  obtain ⟨hs, e, hexp, hlt, hany, hnot⟩ := (sweep_emit_iff rules asOf r).mp h
  unfold sweepRecord
  rw [if_pos hs, hexp]
  dsimp only
  rw [if_neg hlt, if_pos hany, if_pos hnot]

/-- C5: a sweep run strictly after the expiry date of an `ACTIVE` or
`EXPIRING` record sets its status to `EXPIRED` and emits no notification
for that cycle. -/
theorem C5_sweep_expires (rules : List NotificationRuleM) (asOf : Int) (r : SweepRecord)
    (e : Int)
    (hstat : r.status = ComplianceStatus.ACTIVE ∨ r.status = ComplianceStatus.EXPIRING)
    (hexp : r.expiry_day = some e) (hpast : e < asOf) :
    (sweepRecord rules asOf r).1.status = ComplianceStatus.EXPIRED ∧
    (sweepRecord rules asOf r).2 = false := by
  have hneg : e - asOf < 0 := by omega
  unfold sweepRecord
  rw [if_pos hstat, hexp]
  dsimp only
  rw [if_pos hneg]
  exact ⟨rfl, rfl⟩

/-- Record used in the sweeper witnesses: `EXPIRING` with expiry day 99
(yesterday relative to a sweep at day 100). -/
def demoSweepRecord : SweepRecord :=
  { status := .EXPIRING, expiry_day := some 99, last_notified_day := none }

/-- Active 90-day notification rule used in the sweeper witnesses. -/
def demoSweepRule : NotificationRuleM := { days_before_expiry := 90, is_active := true }

theorem C5_sweep_expires_witness :
    ((demoSweepRecord.status = ComplianceStatus.ACTIVE ∨
        demoSweepRecord.status = ComplianceStatus.EXPIRING) ∧
      demoSweepRecord.expiry_day = some 99 ∧ (99 : Int) < 100) ∧
    ((sweepRecord [demoSweepRule] 100 demoSweepRecord).1.status =
        ComplianceStatus.EXPIRED ∧
      (sweepRecord [demoSweepRule] 100 demoSweepRecord).2 = false) :=
  ⟨⟨Or.inr rfl, rfl, by decide⟩,
    C5_sweep_expires [demoSweepRule] 100 demoSweepRecord 99 (Or.inr rfl) rfl
      (by decide)⟩

/-- C6: an alert is emitted only when `last_notified` is absent or more than
7 days old; emission stamps `last_notified` with the sweep date; two sweeps
within 7 days of each other emit at most one alert in total; and a record
already `EXPIRED` is never reactivated by a sweep. -/
theorem C6_alert_dedupe (rules : List NotificationRuleM) (r : SweepRecord) :
    (∀ asOf, (sweepRecord rules asOf r).2 = true →
      (r.last_notified_day = none ∨
        ∃ ln, r.last_notified_day = some ln ∧ 7 < asOf - ln)) ∧
    (∀ asOf, (sweepRecord rules asOf r).2 = true →
      (sweepRecord rules asOf r).1.last_notified_day = some asOf) ∧
    (∀ t1 t2 : Int, r.status = ComplianceStatus.EXPIRING →
      (∃ ln, r.last_notified_day = some ln) → t1 ≤ t2 → t2 - t1 ≤ 7 →
      ((sweepRecord rules t1 r).2 &&
        (sweepRecord rules t2 (sweepRecord rules t1 r).1).2) = false) ∧
    (∀ asOf, r.status = ComplianceStatus.EXPIRED →
      (sweepRecord rules asOf r).1.status = ComplianceStatus.EXPIRED) := by
  refine ⟨?_, ?_, ?_, ?_⟩
  · intro asOf h
    obtain ⟨-, e, -, -, -, hnot⟩ := (sweep_emit_iff rules asOf r).mp h
    cases hln : r.last_notified_day with
    | none => exact Or.inl rfl
    | some ln =>
      right
      refine ⟨ln, rfl, ?_⟩
      rw [hln] at hnot
      simpa [shouldNotify] using hnot
  · intro asOf h
    rw [sweep_emit_result rules asOf r h]
  · intro t1 t2 hs hln h12 h7
    cases hb1 : (sweepRecord rules t1 r).2 with
    | false => simp
    | true =>
      cases hb2 : (sweepRecord rules t2 (sweepRecord rules t1 r).1).2 with
      | false => simp
      | true =>
        exfalso
        have hres := sweep_emit_result rules t1 r hb1
        obtain ⟨-, e, -, -, -, hnot2⟩ :=
          (sweep_emit_iff rules t2 (sweepRecord rules t1 r).1).mp hb2
        rw [hres] at hnot2
        simp only [shouldNotify, decide_eq_true_eq] at hnot2
        omega
  · intro asOf hexpd
    unfold sweepRecord
    rw [if_neg (fun hc => by rcases hc with h | h <;> rw [hexpd] at h <;> cases h)]
    exact hexpd

/-- Record used in the dedupe witness: `EXPIRING`, expiry day 120, last
notified at day 95. -/
def demoWatchRecord : SweepRecord :=
  { status := .EXPIRING, expiry_day := some 120, last_notified_day := some 95 }

theorem C6_alert_dedupe_witness :
    (demoWatchRecord.status = ComplianceStatus.EXPIRING ∧
      demoWatchRecord.last_notified_day = some 95 ∧ (100 : Int) ≤ 103 ∧
      (103 : Int) - 100 ≤ 7) ∧
    ((sweepRecord [demoSweepRule] 100 demoWatchRecord).2 &&
      (sweepRecord [demoSweepRule] 103
        (sweepRecord [demoSweepRule] 100 demoWatchRecord).1).2) = false :=
  ⟨⟨rfl, rfl, by decide, by decide⟩,
    (C6_alert_dedupe [demoSweepRule] demoWatchRecord).2.2.1 100 103 rfl ⟨95, rfl⟩
      (by decide) (by decide)⟩

/-! ### Manual edit validation (C4) -/

/-- C4 counterexample: with the test-report document type selected, a manual
update assigning `ACTIVE` passes validation with neither an expiry date nor
a certificate number, refuting the claim that every `ACTIVE` assignment
requires both. -/
theorem C4_counterexample :
    recordEditFormOk DocType.test_report ComplianceStatus.ACTIVE 0 none none
      true false = true := rfl

/-- C4 (amended): when the certificate document type is selected (the form's
default), a manual update assigning `ACTIVE` fails validation whenever the
expiry date or the certificate number is absent, regardless of any other
form state; the validators are skipped for the test-report document
type. -/
theorem C4_active_requires_certificate_fields (status : ComplianceStatus)
    (monthAgo : Int) (expiry : Option Int) (certNumber : Option String)
    (hasUp hasTR : Bool) (hs : status = ComplianceStatus.ACTIVE)
    (hmiss : expiry = none ∨ jsFalsyStr certNumber = true) :
    recordEditFormOk DocType.certificate status monthAgo expiry certNumber
      hasUp hasTR = false := by
  subst hs
  rcases hmiss with h | h
  · subst h
    simp [recordEditFormOk, expiryDateRuleOk, uploadRuleOk]
  · simp [recordEditFormOk, certificateNumberRuleOk, uploadRuleOk, h]

theorem C4_active_requires_certificate_fields_witness :
    (ComplianceStatus.ACTIVE = ComplianceStatus.ACTIVE ∧
      ((none : Option Int) = none ∨ jsFalsyStr (none : Option String) = true)) ∧
    recordEditFormOk DocType.certificate ComplianceStatus.ACTIVE 0 none none
      true false = false :=
  ⟨⟨rfl, Or.inl rfl⟩,
    C4_active_requires_certificate_fields ComplianceStatus.ACTIVE 0 none none
      true false rfl (Or.inl rfl)⟩

/-! ### Task progress (C7) -/

/-- C7 counterexample: a record with no tasks but a stored
`task_progress_percent` of 50 displays progress 50, not 0, refuting the
claim that the aggregate is derived from the task set alone and is 0
whenever the record has no tasks. -/
theorem C7_counterexample :
    progressPercent (some []) (some 50) = 50 ∧
    ¬ progressPercent (some []) (some 50) = 0 := by decide

/-- C7 (amended): when the record has tasks, the displayed progress is the
rounded done-percentage derived from them; when it has none (or they are
not loaded), the displayed progress falls back to the stored
`task_progress_percent` and is 0 only when that is also absent. -/
theorem C7_progress_derivation :
    (∀ (ts : List TaskStatus) (ip : Option Nat), ts ≠ [] →
      progressPercent (some ts) ip =
        roundPercent (ts.countP fun s => s = TaskStatus.DONE) ts.length) ∧
    (∀ ip : Option Nat, progressPercent (some []) ip = ip.getD 0) ∧
    (∀ ip : Option Nat, progressPercent none ip = ip.getD 0) ∧
    progressPercent (some []) none = 0 := by
  refine ⟨?_, fun ip => rfl, fun ip => rfl, rfl⟩
  intro ts ip hne
  have hpos : 0 < ts.length := List.length_pos.mpr hne
  simp [progressPercent, hpos]

theorem C7_progress_derivation_witness :
    ([TaskStatus.DONE, TaskStatus.TODO] ≠ ([] : List TaskStatus)) ∧
    progressPercent (some [TaskStatus.DONE, TaskStatus.TODO]) (some 7) =
      roundPercent
        (([TaskStatus.DONE, TaskStatus.TODO]).countP fun s => s = TaskStatus.DONE)
        ([TaskStatus.DONE, TaskStatus.TODO]).length :=
  ⟨by decide,
    C7_progress_derivation.1 [TaskStatus.DONE, TaskStatus.TODO] (some 7) (by decide)⟩

/-! ### Labelling fuzzy matcher (C8) -/

/-- Record whose certification name lowercases to `wpc`. -/
def demoWpcRecord : LabelRecordView :=
  { certification_name := some "WPC", country_id := 1 }

/-- Label whose lowered name contains both `bis` and `wpc`. -/
def demoBisWpcLabel : CertificationLabelM :=
  { name := "BIS-WPC Mark", country_id := some 1, region := none }

/-- C8 counterexample: for a `WPC` record, the label named `BIS-WPC Mark` —
whose lowered name contains `bis` — is selected (the name-containment rule
fires before the WPC/BIS exclusion), refuting the claim that a
`bis`-containing label is never selected. -/
theorem C8_counterexample :
    matchingLabel demoWpcRecord [demoBisWpcLabel] = some demoBisWpcLabel ∧
    "bis".data <:+: lowerChars demoBisWpcLabel.name := by decide

/-- C8 (amended): for a record whose certification name lowercases to `wpc`,
any selected label whose lowered name contains `bis` must also contain
`wpc`; equivalently, a label containing `bis` but not `wpc` is never
selected, even when its country matches — the explicit WPC/BIS exclusion
takes precedence over every rule after the name-containment check. -/
theorem C8_wpc_bis_exclusion (record : LabelRecordView)
    (labels : List CertificationLabelM) (l : CertificationLabelM)
    (hwpc : lowerChars (record.certification_name.getD "") = "wpc".data)
    (hsel : matchingLabel record labels = some l)
    (hbis : "bis".data <:+: lowerChars l.name) :
    "wpc".data <:+: lowerChars l.name := by
  have hmatch : labelMatches record l = true := List.find?_some hsel
  simp only [labelMatches] at hmatch
  rw [hwpc] at hmatch
  by_cases h1 : lowerChars l.name = "wpc".data ∨ "wpc".data <:+: lowerChars l.name ∨
      lowerChars l.name <:+: "wpc".data
  · rcases h1 with h | h | h
    · rw [h]
    · exact h
    · exact absurd (hbis.trans h) (by decide)
  · rw [if_neg h1] at hmatch
    rw [if_neg (fun hc => absurd hc.1 (by decide))] at hmatch
    rw [if_neg (fun hc => absurd hc.1 (by decide))] at hmatch
    rw [if_pos ⟨rfl, hbis⟩] at hmatch
    simp at hmatch

theorem C8_wpc_bis_exclusion_witness :
    (lowerChars (demoWpcRecord.certification_name.getD "") = "wpc".data ∧
      matchingLabel demoWpcRecord [demoBisWpcLabel] = some demoBisWpcLabel ∧
      "bis".data <:+: lowerChars demoBisWpcLabel.name) ∧
    "wpc".data <:+: lowerChars demoBisWpcLabel.name :=
  ⟨⟨by decide, by decide, by decide⟩,
    C8_wpc_bis_exclusion demoWpcRecord [demoBisWpcLabel] demoBisWpcLabel
      (by decide) (by decide) (by decide)⟩

/-! ### Tenant auto-selection (C9) -/

theorem find?_first_active (pre post : List TenantM) (t : TenantM)
    (hpre : ∀ u ∈ pre, u.is_active = false) (ht : t.is_active = true) :
    (pre ++ t :: post).find? (fun u => u.is_active) = some t := by
  induction pre with
  | nil =>
    rw [List.nil_append]
    exact List.find?_cons_of_pos _ ht
  | cons a rest ih =>
    rw [List.cons_append,
      List.find?_cons_of_neg _ (by simp [hpre a (List.mem_cons_self a rest)])]
    exact ih (fun u hu => hpre u (List.mem_cons_of_mem a hu))

/-- C9: when `setTenants` is dispatched with no tenant selected, the first
active tenant of the list is selected and persisted; with no active tenant
the selection stays `null` and localStorage is untouched; an existing
selection (a non-empty tenant id) is never changed; and the tenants list is
always replaced by the payload. -/
theorem C9_setTenants_autoselect (st : TenantState) (ls : Option String)
    (payload : List TenantM) :
    (st.currentTenantId = none →
      (∀ (pre post : List TenantM) (t : TenantM),
        payload = pre ++ t :: post → (∀ u ∈ pre, u.is_active = false) →
        t.is_active = true →
        (setTenants st ls payload).1.currentTenantId = some t.id ∧
        (setTenants st ls payload).2 = some t.id) ∧
      ((∀ u ∈ payload, u.is_active = false) →
        (setTenants st ls payload).1.currentTenantId = none ∧
        (setTenants st ls payload).2 = ls)) ∧
    (∀ tid, st.currentTenantId = some tid → tid ≠ "" →
      (setTenants st ls payload).1.currentTenantId = some tid ∧
      (setTenants st ls payload).2 = ls) ∧
    (setTenants st ls payload).1.tenants = payload := by
  refine ⟨fun hnone => ⟨?_, ?_⟩, ?_, ?_⟩
  · intro pre post t hpl hpre ht
    have hfalsy : jsFalsyStr st.currentTenantId = true := by rw [hnone]; rfl
    have hlen : 0 < payload.length := by
      rw [hpl]
      simp
    unfold setTenants
    rw [if_pos ⟨hfalsy, hlen⟩, hpl, find?_first_active pre post t hpre ht]
    exact ⟨rfl, rfl⟩
  · intro hinact
    by_cases hlen : 0 < payload.length
    · have hfind : payload.find? (fun u => u.is_active) = none :=
        List.find?_eq_none.mpr (fun u hu => by simp [hinact u hu])
      unfold setTenants
      rw [if_pos ⟨by rw [hnone]; rfl, hlen⟩, hfind]
      exact ⟨hnone, rfl⟩
    · unfold setTenants
      rw [if_neg (fun hc => hlen hc.2)]
      exact ⟨hnone, rfl⟩
  · intro tid htid hne
    have hfalsy : jsFalsyStr st.currentTenantId = false := by
      rw [htid]
      simp [jsFalsyStr, hne]
    unfold setTenants
    rw [if_neg (fun hc => by rw [hfalsy] at hc; cases hc.1)]
    exact ⟨htid, rfl⟩
  · unfold setTenants
    by_cases hcond : jsFalsyStr st.currentTenantId = true ∧ 0 < payload.length
    · rw [if_pos hcond]
      cases hf : payload.find? (fun t => t.is_active) with
      | none => rfl
      | some t => rfl
    · rw [if_neg hcond]

/-- Inactive tenant used in the auto-selection witness. -/
def demoInactiveTenant : TenantM := { id := "t1", name := "Acme", is_active := false }

/-- Active tenant used in the auto-selection witness. -/
def demoActiveTenant : TenantM := { id := "t2", name := "Beta", is_active := true }

/-- Tenant-slice state with no current selection. -/
def demoTenantState : TenantState := { currentTenantId := none, tenants := [] }

theorem C9_setTenants_autoselect_witness :
    (demoTenantState.currentTenantId = none ∧
      [demoInactiveTenant, demoActiveTenant] =
        [demoInactiveTenant] ++ demoActiveTenant :: [] ∧
      (∀ u ∈ [demoInactiveTenant], u.is_active = false) ∧
      demoActiveTenant.is_active = true) ∧
    ((setTenants demoTenantState none
        [demoInactiveTenant, demoActiveTenant]).1.currentTenantId =
      some demoActiveTenant.id ∧
      (setTenants demoTenantState none [demoInactiveTenant, demoActiveTenant]).2 =
        some demoActiveTenant.id) :=
  ⟨⟨rfl, rfl, by decide, rfl⟩,
    ((C9_setTenants_autoselect demoTenantState none
        [demoInactiveTenant, demoActiveTenant]).1 rfl).1
      [demoInactiveTenant] [] demoActiveTenant rfl (by decide) rfl⟩

/-! ### daysUntil totality (C10) -/

/-- C10: `daysUntil` is total over date, `null` and `undefined` inputs,
returning 0 for the falsy inputs and the signed whole-day difference
otherwise. -/
theorem C10_daysUntil_total (today : Int) :
    daysUntil JSDateInput.null today = 0 ∧
    daysUntil JSDateInput.undef today = 0 ∧
    ∀ d, daysUntil (JSDateInput.date d) today = d - today :=
  ⟨rfl, rfl, fun _ => rfl⟩

end DeltaCertM
